import Mathlib

/-!
Shallow embedding of mvr.py, a utility that moves recently created files
from a set of source directories into a destination directory.

Paths are modelled as plain strings joined by a slash.  The filesystem is
modelled by a structure bundling the set of existing paths, a resolver for
symlink resolution, the glob collaborator, a regular-file predicate, the
per-file birth time (None when the platform cannot report it), and the
current time.  Timestamps are integers in seconds.  The mover's while loop
over collision counters is embedded with explicit fuel.
-/

namespace Mvr

/-- Join a directory path and an entry name with a slash, as the `/`
operator on pathlib paths does. -/
def pathJoin (dir name : String) : String := dir ++ "/" ++ name

/-- Index of the last occurrence of a character in a character list,
mirroring Python's str.rfind. -/
def rfindIdx (cs : List Char) (c : Char) : Option Nat :=
  match cs.reverse.findIdx? (fun x => x == c) with
  | none => none
  | some j => some (cs.length - 1 - j)

/-- Final path component, as pathlib's Path.name: everything after the
last slash. -/
def baseName (p : String) : String :=
  match rfindIdx p.data '/' with
  | none => p
  | some i => String.mk (p.data.drop (i + 1))

/-- Syntactic parent of a path, as pathlib's Path.parent: everything
before the last slash. -/
def parentOf (p : String) : String :=
  match rfindIdx p.data '/' with
  | none => "."
  | some i => String.mk (p.data.take i)

/-- pathlib's Path.stem of a name: the part before the last dot, provided
that dot is neither the first nor the last character; otherwise the whole
name. -/
def pathStem (name : String) : String :=
  match rfindIdx name.data '.' with
  | some i =>
    if 0 < i ∧ i + 1 < name.data.length then String.mk (name.data.take i) else name
  | none => name

/-- pathlib's Path.suffix of a name: from the last dot onward, provided
that dot is neither the first nor the last character; otherwise empty. -/
def pathSuffix (name : String) : String :=
  match rfindIdx name.data '.' with
  | some i =>
    if 0 < i ∧ i + 1 < name.data.length then String.mk (name.data.drop i) else ""
  | none => ""

/-- Python's str.startswith('.') on a base name: true when the first
character is a dot. -/
def startsWithDot (s : String) : Bool :=
  match s.data with
  | [] => false
  | c :: _ => c == '.'

/-- The structured options record delivered by the argument parser. -/
structure Options where
  docs : Bool
  desktop : Bool
  dl : Bool
  auto : Bool
  scr : Bool
  images : Bool
  videos : Bool
  window : Int
  dr : Bool
  patterns : List String

/-- PATTERNS["scr"] from the source. -/
def PATTERNS_scr : List String := ["Screenshot*"]

/-- PATTERNS["images"] from the source. -/
def PATTERNS_images : List String :=
  ["*.jpg", "*.jpeg", "*.png", "*.gif", "*.bmp", "*.tiff", "*.webp", "*.heic"]

/-- PATTERNS["videos"] from the source. -/
def PATTERNS_videos : List String :=
  ["*.mov", "*.mp4", "*.mkv", "*.avi", "*.wmv", "*.flv", "*.webm", "*.m4v"]

/-- DIRECTORIES["docs"] from the source, with the home directory a
parameter. -/
def DIRECTORIES_docs (home : String) : String := pathJoin home "Documents"

/-- DIRECTORIES["desktop"] from the source. -/
def DIRECTORIES_desktop (home : String) : String := pathJoin home "Desktop"

/-- DIRECTORIES["dl"] from the source. -/
def DIRECTORIES_dl (home : String) : String := pathJoin home "Downloads"

/-- DIRECTORIES["auto"] from the source: home, Downloads, Desktop,
Documents, in that order. -/
def DIRECTORIES_auto (home : String) : List String :=
  [home, pathJoin home "Downloads", pathJoin home "Desktop", pathJoin home "Documents"]

/-- get_search_directories from the source: auto wins; otherwise the
individually selected directories in the fixed order docs, desktop,
downloads; empty falls back to the current working directory. -/
def get_search_directories (home cwd : String) (args : Options) : List String :=
  let directories : List String :=
    if args.auto then DIRECTORIES_auto home
    else
      (if args.docs then [DIRECTORIES_docs home] else [])
        ++ (if args.desktop then [DIRECTORIES_desktop home] else [])
        ++ (if args.dl then [DIRECTORIES_dl home] else [])
  if directories.isEmpty then [cwd] else directories

/-- get_patterns from the source: category groups in the order scr,
images, videos, then the custom patterns; empty falls back to the
match-all pattern. -/
def get_patterns (args : Options) : List String :=
  let patterns : List String :=
    (if args.scr then PATTERNS_scr else [])
      ++ (if args.images then PATTERNS_images else [])
      ++ (if args.videos then PATTERNS_videos else [])
      ++ (if args.patterns.isEmpty then [] else args.patterns)
  if patterns.isEmpty then ["*"] else patterns

/-- Filesystem model: the set of existing paths, the path resolver, the
glob collaborator (full paths returned for a directory and a pattern), a
regular-file predicate, per-file birth time (none when the platform
cannot report it), and the current time in seconds. -/
structure FS where
  paths : List String
  resolve : String → String
  glob : String → String → List String
  isFile : String → Bool
  birth : String → Option Int
  now : Int

/-- is_within_window from the source: true when the file's birth time is
at least now minus the window (in minutes); false when the birth time is
unavailable. -/
def is_within_window (fs : FS) (file_path : String) (minutes : Int) : Bool :=
  match fs.birth file_path with
  | none => false
  | some file_time => decide (fs.now - 60 * minutes ≤ file_time)

/-- sorted(set(xs)) from the source: drop duplicates and sort
ascending. -/
def dedupSort (xs : List String) : List String :=
  xs.toFinset.sort (fun a b => a ≤ b)

/-- find_matching_files from the source: for each existing searched
directory other than the (resolved) destination, for each pattern, keep
the globbed entries that are regular files directly inside the directory,
are not hidden, and fall within the time window; finally deduplicate and
sort. -/
def find_matching_files (fs : FS) (directories patterns : List String)
    (window : Int) (dest_dir : String) : List String :=
  dedupSort
    (directories.flatMap (fun directory =>
      if directory ∉ fs.paths then []
      else if fs.resolve directory = fs.resolve dest_dir then []
      else
        patterns.flatMap (fun pattern =>
          (fs.glob directory pattern).filter (fun file_path =>
            fs.isFile file_path
              && decide (parentOf file_path = directory)
              && !(startsWithDot (baseName file_path))
              && is_within_window fs file_path window))))

/-- The collision name built in the mover's loop: base, underscore,
counter, suffix. -/
def collName (base suffix : String) (counter : Nat) : String :=
  base ++ "_" ++ toString counter ++ suffix

/-- The mover's while loop over collision counters, with explicit fuel:
try base_counter-suffix names until one does not exist. -/
def findLoop (ex : String → Bool) (dest_dir base suffix : String) :
    Nat → Nat → Option String
  | _, 0 => none
  | counter, fuel + 1 =>
    let dest_path := pathJoin dest_dir (collName base suffix counter)
    if ex dest_path then findLoop ex dest_dir base suffix (counter + 1) fuel
    else some dest_path

/-- The mover's destination computation for one candidate: the plain
destination path when free, otherwise the collision loop starting at
counter 1 on the stem and suffix of the name. -/
def findDest (ex : String → Bool) (dest_dir name : String) (fuel : Nat) :
    Option String :=
  let dest_path := pathJoin dest_dir name
  if ex dest_path then findLoop ex dest_dir (pathStem name) (pathSuffix name) 1 fuel
  else some dest_path

/-- Mover state: the existing paths, the standard-output lines, and the
standard-error lines. -/
structure MState where
  paths : List String
  out : List String
  err : List String
deriving DecidableEq

/-- The count header printed before processing. -/
def headerLine (n : Nat) : String := "Found " ++ toString n ++ " file(s):"

/-- The dry-run report line. -/
def dryLine (src dst : String) : String :=
  "  [DRY RUN] Would move: " ++ src ++ " -> " ++ dst

/-- The success report line. -/
def movedLine (src dst : String) : String :=
  "  Moved: " ++ src ++ " -> " ++ dst

/-- The failure diagnostic line, naming the file and the cause. -/
def errorLine (src msg : String) : String :=
  "  Error moving " ++ src ++ ": " ++ msg

/-- Effect of shutil.move on the set of existing paths: the source is
gone, the destination exists. -/
def movePaths (paths : List String) (src dst : String) : List String :=
  dst :: paths.filter (fun p => decide (p ≠ src))

/-- The mover's per-candidate loop.  mv is the shutil.move collaborator:
none on success, or the exception message on failure.  Returns none when
the collision loop runs out of fuel. -/
def move_loop (mv : String → String → Option String) (dest_dir : String)
    (dry_run : Bool) (fuel : Nat) : List String → MState → Option MState
  | [], st => some st
  | file_path :: rest, st =>
    match findDest (fun p => decide (p ∈ st.paths)) dest_dir (baseName file_path) fuel with
    | none => none
    | some dest_path =>
      if dry_run then
        move_loop mv dest_dir dry_run fuel rest
          { st with out := st.out ++ [dryLine file_path dest_path] }
      else
        match mv file_path dest_path with
        | none =>
          move_loop mv dest_dir dry_run fuel rest
            { st with paths := movePaths st.paths file_path dest_path,
                      out := st.out ++ [movedLine file_path dest_path] }
        | some msg =>
          move_loop mv dest_dir dry_run fuel rest
            { st with err := st.err ++ [errorLine file_path msg] }

/-- move_files from the source: the no-matches notice on an empty list,
otherwise the count header followed by the per-candidate loop. -/
def move_files (mv : String → String → Option String) (files : List String)
    (dest_dir : String) (dry_run : Bool) (fuel : Nat) (st : MState) :
    Option MState :=
  if files.isEmpty then some { st with out := st.out ++ ["No matching files found."] }
  else move_loop mv dest_dir dry_run fuel files { st with out := st.out ++ [headerLine files.length] }

/-- Spec-side characterisation of a candidate: reachable through some
searched existing directory that does not resolve to the destination and
some pattern, a regular file directly inside that directory, not hidden,
and within the time window. -/
def matchesSpec (fs : FS) (directories patterns : List String)
    (window : Int) (dest_dir : String) (p : String) : Prop :=
  ∃ d ∈ directories, d ∈ fs.paths ∧ fs.resolve d ≠ fs.resolve dest_dir ∧
    ∃ pat ∈ patterns, p ∈ fs.glob d pat ∧ fs.isFile p = true ∧ parentOf p = d ∧
      startsWithDot (baseName p) = false ∧ is_within_window fs p window = true

/-- Spec-side extension rule of claim C10 taken literally: the substring
from the last dot of the name onward, with no side conditions. -/
def lastDotSuffix (name : String) : String :=
  match rfindIdx name.data '.' with
  | some i => String.mk (name.data.drop i)
  | none => ""

/-- Spec-side stem rule matching lastDotSuffix: everything before the
last dot. -/
def lastDotStem (name : String) : String :=
  match rfindIdx name.data '.' with
  | some i => String.mk (name.data.take i)
  | none => name

instance matchesSpecDecidable (fs : FS) (directories patterns : List String)
    (window : Int) (dest_dir p : String) :
    Decidable (matchesSpec fs directories patterns window dest_dir p) := by
  unfold matchesSpec
  infer_instance

/-! ## Helper lemmas -/

/-- Entries of the directory list on which the loop body is empty can be
dropped without changing a flatMap. -/
lemma flatMap_filter_of_nil {α β : Type} (q : α → Bool) (f : α → List β)
    (h : ∀ a, q a = false → f a = []) :
    ∀ l : List α, (l.filter q).flatMap f = l.flatMap f := by
  intro l
  induction l with
  | nil => rfl
  | cons a l ih =>
    cases hq : q a
    · simp [hq, ih, h a hq]
    · simp [hq, ih]

/-- Membership survives deduplication and sorting. -/
lemma mem_dedupSort (xs : List String) (p : String) : p ∈ dedupSort xs ↔ p ∈ xs := by
  simp [dedupSort, Finset.mem_sort, List.mem_toFinset]

/-- The deduplicated, sorted list has no duplicates. -/
lemma nodup_dedupSort (xs : List String) : (dedupSort xs).Nodup :=
  Finset.sort_nodup _ _

/-- The deduplicated, sorted list is strictly sorted. -/
lemma sorted_dedupSort (xs : List String) : (dedupSort xs).Sorted (· < ·) :=
  Finset.sort_sorted_lt _

/-- The scanner's output contains exactly the paths characterised by
matchesSpec. -/
lemma mem_find_matching_files (fs : FS) (directories patterns : List String)
    (window : Int) (dest_dir : String) (p : String) :
    p ∈ find_matching_files fs directories patterns window dest_dir ↔
      matchesSpec fs directories patterns window dest_dir p := by
  unfold find_matching_files matchesSpec
  rw [mem_dedupSort, List.mem_flatMap]
  apply exists_congr
  intro d
  apply and_congr_right
  intro _
  by_cases hd : d ∈ fs.paths
  · by_cases hr : fs.resolve d = fs.resolve dest_dir
    · simp [hd, hr]
    · simp [hd, hr, List.mem_flatMap, List.mem_filter, Bool.and_eq_true,
        decide_eq_true_eq, Bool.not_eq_true', and_assoc]
  · simp [hd]

/-! ## Claims -/

/-- C5: with the auto selector set, the Directory Resolver returns exactly
home, Downloads, Desktop, Documents in that order, ignoring any individual
directory selector flags that are also set. -/
theorem c5_auto_directories (home cwd : String) (args : Options)
    (h : args.auto = true) :
    get_search_directories home cwd args =
      [home, pathJoin home "Downloads", pathJoin home "Desktop",
        pathJoin home "Documents"] := by
  simp [get_search_directories, h, DIRECTORIES_auto]

/-- Witness for C5 at a concrete options record with every directory flag
set. -/
theorem c5_auto_directories_witness :
    get_search_directories "/h" "/c"
        ⟨true, true, true, true, false, false, false, 5, false, []⟩ =
      ["/h", pathJoin "/h" "Downloads", pathJoin "/h" "Desktop",
        pathJoin "/h" "Documents"] :=
  c5_auto_directories "/h" "/c" _ rfl

/-- C6: the Pattern Resolver returns the category groups in the fixed
order scr, images, videos (for each set flag), followed by the custom
patterns in order; with no flags and no custom patterns it returns exactly
the match-all pattern. -/
theorem c6_pattern_resolver (args : Options) :
    (args.scr = false ∧ args.images = false ∧ args.videos = false ∧
        args.patterns = [] → get_patterns args = ["*"]) ∧
    (args.scr = true ∨ args.images = true ∨ args.videos = true ∨
        args.patterns ≠ [] →
      get_patterns args =
        (if args.scr then PATTERNS_scr else [])
          ++ (if args.images then PATTERNS_images else [])
          ++ (if args.videos then PATTERNS_videos else [])
          ++ args.patterns) := by
  constructor
  · rintro ⟨h1, h2, h3, h4⟩
    simp [get_patterns, h1, h2, h3, h4]
  · intro h
    rcases hs : args.scr <;> rcases hi : args.images <;> rcases hv : args.videos <;>
      rcases hp : args.patterns with _ | ⟨a, l⟩ <;>
      simp_all [get_patterns, PATTERNS_scr, PATTERNS_images, PATTERNS_videos]

/-- Witness for C6 at concrete options: images flag plus one custom
pattern, and the empty options record. -/
theorem c6_pattern_resolver_witness :
    get_patterns ⟨false, false, false, false, false, true, false, 5, false, ["*.dmg"]⟩ =
        PATTERNS_images ++ ["*.dmg"] ∧
      get_patterns ⟨false, false, false, false, false, false, false, 5, false, []⟩ = ["*"] := by
  constructor
  · have h := (c6_pattern_resolver
      ⟨false, false, false, false, false, true, false, 5, false, ["*.dmg"]⟩).2
      (Or.inr (Or.inl rfl))
    simpa using h
  · exact (c6_pattern_resolver
      ⟨false, false, false, false, false, false, false, 5, false, []⟩).1
      ⟨rfl, rfl, rfl, rfl⟩

/-- C3: a file with a known birth time passes the time filter exactly when
that time is at least now minus the window in minutes; in particular a
file created 10 minutes (600 seconds) ago fails the filter for window 5
and passes it for window 15. -/
theorem c3_time_window :
    (∀ (fs : FS) (p : String) (minutes t : Int), fs.birth p = some t →
      (is_within_window fs p minutes = true ↔ fs.now - 60 * minutes ≤ t)) ∧
    (∀ (fs : FS) (p : String), fs.birth p = some (fs.now - 600) →
      is_within_window fs p 5 = false ∧ is_within_window fs p 15 = true) := by
  constructor
  · intro fs p minutes t h
    simp [is_within_window, h]
  · intro fs p h
    simp only [is_within_window, h, decide_eq_true_eq, decide_eq_false_iff_not]
    refine ⟨?_, ?_⟩ <;> omega

/-- Witness for C3 at a concrete filesystem whose single file was born 600
seconds before now. -/
theorem c3_time_window_witness :
    is_within_window ⟨[], id, fun _ _ => [], fun _ => true, fun _ => some (-600), 0⟩
        "f" 5 = false ∧
      is_within_window ⟨[], id, fun _ _ => [], fun _ => true, fun _ => some (-600), 0⟩
        "f" 15 = true :=
  c3_time_window.2 ⟨[], id, fun _ _ => [], fun _ => true, fun _ => some (-600), 0⟩
    "f" rfl

/-- A concrete filesystem used by witnesses: one source directory "/s"
holding the regular file "/s/a.png", and the destination "/d" already
holding "/d/a.png"; every file was born at the current instant. -/
def wFS : FS where
  paths := ["/d", "/s", "/s/a.png", "/d/a.png"]
  resolve := id
  glob := fun d pat => if d = "/s" ∧ pat = "*" then ["/s/a.png"] else []
  isFile := fun p => decide (p = "/s/a.png" ∨ p = "/d/a.png")
  birth := fun _ => some 0
  now := 0

/-- C2: the scanner's output contains each matching file exactly once,
even when it is reachable via several directory/pattern combinations, and
is sorted by full path in ascending lexical order. -/
theorem c2_scanner_dedup_sorted (fs : FS) (directories patterns : List String)
    (window : Int) (dest_dir : String) :
    (find_matching_files fs directories patterns window dest_dir).Sorted (· < ·) ∧
    (∀ p, p ∈ find_matching_files fs directories patterns window dest_dir ↔
      matchesSpec fs directories patterns window dest_dir p) ∧
    (∀ p, matchesSpec fs directories patterns window dest_dir p →
      (find_matching_files fs directories patterns window dest_dir).count p = 1) := by
  refine ⟨sorted_dedupSort _, fun p => mem_find_matching_files _ _ _ _ _ _, fun p hp => ?_⟩
  exact List.count_eq_one_of_mem (nodup_dedupSort _)
    ((mem_find_matching_files _ _ _ _ _ _).mpr hp)

/-- Witness for C2: on the concrete filesystem, with the source directory
listed twice and two overlapping patterns, the matching file is counted
exactly once. -/
theorem c2_scanner_dedup_sorted_witness :
    (find_matching_files wFS ["/s", "/s"] ["*", "*.png"] 5 "/d").count "/s/a.png" = 1 :=
  (c2_scanner_dedup_sorted wFS ["/s", "/s"] ["*", "*.png"] 5 "/d").2.2 "/s/a.png"
    (by decide)

/-- C4: searched directories that resolve to the destination directory
contribute no candidates (dropping them does not change the output), and
every candidate sits directly inside a directory that does not resolve to
the destination. -/
theorem c4_destination_excluded (fs : FS) (directories patterns : List String)
    (window : Int) (dest_dir : String) :
    find_matching_files fs directories patterns window dest_dir =
      find_matching_files fs
        (directories.filter (fun d => decide (fs.resolve d ≠ fs.resolve dest_dir)))
        patterns window dest_dir ∧
    (∀ p, p ∈ find_matching_files fs directories patterns window dest_dir →
      fs.resolve (parentOf p) ≠ fs.resolve dest_dir) := by
  constructor
  · unfold find_matching_files
    refine (congrArg dedupSort ?_).symm
    apply flatMap_filter_of_nil
    intro d hq
    simp only [decide_eq_false_iff_not, not_not] at hq
    by_cases hd : d ∈ fs.paths
    · simp [hd, hq]
    · simp [hd]
  · intro p hp
    rcases (mem_find_matching_files fs directories patterns window dest_dir p).mp hp
      with ⟨d, _, _, hr, _, _, _, _, hpar, _⟩
    rw [hpar]
    exact hr

/-- Witness for C4: on the concrete filesystem the candidate's parent
directory does not resolve to the destination; the hypothesis is the
candidate produced by a scan whose directory list even includes the
destination itself. -/
theorem c4_destination_excluded_witness :
    wFS.resolve (parentOf "/s/a.png") ≠ wFS.resolve "/d" :=
  (c4_destination_excluded wFS ["/d", "/s"] ["*"] 5 "/d").2 "/s/a.png"
    ((mem_find_matching_files wFS ["/d", "/s"] ["*"] 5 "/d" "/s/a.png").mpr (by decide))

/-- C7: a hidden file (base name starting with a dot) is never in the
scanner's output. -/
theorem c7_hidden_excluded (fs : FS) (directories patterns : List String)
    (window : Int) (dest_dir : String) (p : String)
    (hp : p ∈ find_matching_files fs directories patterns window dest_dir) :
    startsWithDot (baseName p) = false := by
  rcases (mem_find_matching_files fs directories patterns window dest_dir p).mp hp
    with ⟨d, _, _, _, _, _, _, _, _, hhid, _⟩
  exact hhid

/-- Witness for C7 at the concrete filesystem's single candidate. -/
theorem c7_hidden_excluded_witness :
    startsWithDot (baseName "/s/a.png") = false :=
  c7_hidden_excluded wFS ["/s"] ["*"] 5 "/d" "/s/a.png"
    ((mem_find_matching_files wFS ["/s"] ["*"] 5 "/d" "/s/a.png").mpr (by decide))

/-- The collision loop returns the candidate for the least free counter:
if counter n is free, all counters from the start up to n are taken, and
there is enough fuel, the loop stops exactly at n. -/
lemma findLoop_eq (ex : String → Bool) (dest_dir base suffix : String) :
    ∀ (fuel counter n : Nat), counter ≤ n → n < counter + fuel →
      ex (pathJoin dest_dir (collName base suffix n)) = false →
      (∀ j, counter ≤ j → j < n →
        ex (pathJoin dest_dir (collName base suffix j)) = true) →
      findLoop ex dest_dir base suffix counter fuel =
        some (pathJoin dest_dir (collName base suffix n)) := by
  intro fuel
  induction fuel with
  | zero =>
    intro counter n h1 h2 _ _
    omega
  | succ f ih =>
    intro counter n h1 h2 hfree hall
    by_cases hc : counter = n
    · subst hc
      simp [findLoop, hfree]
    · have ht : ex (pathJoin dest_dir (collName base suffix counter)) = true :=
        hall counter le_rfl (by omega)
      simp only [findLoop, ht, if_true]
      exact ih (counter + 1) n (by omega) (by omega) hfree
        (fun j hj1 hj2 => hall j (by omega) hj2)

/-- C1: when the initial destination path exists, the computed destination
appends an underscore and the first counter n = 1, 2, ... (before the
extension) whose path does not exist; and the mover runs this computation
fresh, against its current state, for each candidate in turn. -/
theorem c1_collision_rename :
    (∀ (ex : String → Bool) (dest_dir name : String) (fuel n : Nat),
      ex (pathJoin dest_dir name) = true → 1 ≤ n → n ≤ fuel →
      ex (pathJoin dest_dir (collName (pathStem name) (pathSuffix name) n)) = false →
      (∀ j, 1 ≤ j → j < n →
        ex (pathJoin dest_dir (collName (pathStem name) (pathSuffix name) j)) = true) →
      findDest ex dest_dir name fuel =
        some (pathJoin dest_dir (collName (pathStem name) (pathSuffix name) n))) ∧
    (∀ (mv : String → String → Option String) (dest_dir : String) (dry_run : Bool)
        (fuel : Nat) (file_path : String) (rest : List String) (st : MState)
        (dest_path : String),
      findDest (fun p => decide (p ∈ st.paths)) dest_dir (baseName file_path) fuel =
        some dest_path →
      move_loop mv dest_dir dry_run fuel (file_path :: rest) st =
        if dry_run then
          move_loop mv dest_dir dry_run fuel rest
            { st with out := st.out ++ [dryLine file_path dest_path] }
        else
          match mv file_path dest_path with
          | none =>
            move_loop mv dest_dir dry_run fuel rest
              { st with paths := movePaths st.paths file_path dest_path,
                        out := st.out ++ [movedLine file_path dest_path] }
          | some msg =>
            move_loop mv dest_dir dry_run fuel rest
              { st with err := st.err ++ [errorLine file_path msg] }) := by
  constructor
  · intro ex dest_dir name fuel n h0 h1 hf hfree hall
    unfold findDest
    simp only [h0, if_true]
    exact findLoop_eq ex dest_dir _ _ fuel 1 n h1 (by omega) hfree hall
  · intro mv dest_dir dry_run fuel file_path rest st dest_path h
    rw [move_loop, h]

/-- Witness for C1: with "a.png" and "a_1.png" both present in the
destination, the computed name uses the least free counter 2. -/
theorem c1_collision_rename_witness :
    findDest (fun p => decide (p ∈ ["d/a.png", "d/a_1.png"])) "d" "a.png" 5 =
      some (pathJoin "d" (collName (pathStem "a.png") (pathSuffix "a.png") 2)) :=
  c1_collision_rename.1 (fun p => decide (p ∈ ["d/a.png", "d/a_1.png"]))
    "d" "a.png" 5 2 (by decide) (by decide) (by decide) (by decide)
    (fun j hj1 hj2 => by
      have hj : j = 1 := by omega
      subst hj
      decide)

/-- C10 counterexample: the claim reads the extension as the substring
from the last dot onward, but Path.suffix is empty when that dot is the
final character.  At the colliding name "x." the code produces "x._1"
while the claim's reading produces "x_1.". -/
theorem c10_counterexample :
    findDest (fun p => decide (p ∈ ["d/x."])) "d" "x." 3 = some (pathJoin "d" "x._1") ∧
    lastDotStem "x." = "x" ∧ lastDotSuffix "x." = "." ∧
    collName (lastDotStem "x.") (lastDotSuffix "x.") 1 = "x_1." ∧
    pathJoin "d" "x._1" ≠ pathJoin "d" (collName (lastDotStem "x.") (lastDotSuffix "x.") 1) := by
  decide

/-- C10 amended: the extension used by the collision renaming is
Path.suffix: the substring from the last dot onward when that dot is
neither the first nor the last character of the name, and empty otherwise;
hence a dotless colliding "name" becomes "name_1" and a colliding
"a.tar.gz" becomes "a.tar_1.gz". -/
theorem c10_suffix_split :
    (∀ name : String, '.' ∉ name.data →
      pathStem name = name ∧ pathSuffix name = "") ∧
    (∀ (name : String) (i : Nat), rfindIdx name.data '.' = some i →
      0 < i → i + 1 < name.data.length →
      pathStem name = String.mk (name.data.take i) ∧
        pathSuffix name = String.mk (name.data.drop i)) ∧
    (∀ (name : String) (i : Nat), rfindIdx name.data '.' = some i →
      (i = 0 ∨ i + 1 = name.data.length) →
      pathStem name = name ∧ pathSuffix name = "") ∧
    findDest (fun p => decide (p ∈ ["d/name"])) "d" "name" 3 =
      some (pathJoin "d" "name_1") ∧
    findDest (fun p => decide (p ∈ ["d/a.tar.gz"])) "d" "a.tar.gz" 3 =
      some (pathJoin "d" "a.tar_1.gz") := by
  refine ⟨?_, ?_, ?_, by decide, by decide⟩
  · intro name h
    have hnone : rfindIdx name.data '.' = none := by
      unfold rfindIdx
      have : name.data.reverse.findIdx? (fun x => x == '.') = none := by
        rw [List.findIdx?_eq_none_iff]
        intro x hx
        simp only [beq_eq_false_iff_ne, ne_eq]
        intro he
        subst he
        exact h (List.mem_reverse.mp hx)
      rw [this]
    constructor <;> simp [pathStem, pathSuffix, hnone]
  · intro name i hi h0 hlen
    have hcond : 0 < i ∧ i + 1 < name.data.length := ⟨h0, hlen⟩
    constructor <;> simp only [pathStem, pathSuffix, hi, if_pos hcond]
  · intro name i hi hcase
    have hcond : ¬ (0 < i ∧ i + 1 < name.data.length) := by omega
    constructor <;> simp only [pathStem, pathSuffix, hi, if_neg hcond]

/-- Witness for C10 at the three shapes of name: dotless, multi-dot with
an inner last dot, and trailing dot. -/
theorem c10_suffix_split_witness :
    (pathStem "name" = "name" ∧ pathSuffix "name" = "") ∧
    (pathStem "a.tar.gz" = String.mk ("a.tar.gz".data.take 5) ∧
      pathSuffix "a.tar.gz" = String.mk ("a.tar.gz".data.drop 5)) ∧
    (pathStem "x." = "x." ∧ pathSuffix "x." = "") :=
  ⟨c10_suffix_split.1 "name" (by decide),
    c10_suffix_split.2.1 "a.tar.gz" 5 (by decide) (by decide) (by decide),
    c10_suffix_split.2.2.1 "x." 1 (by decide) (Or.inr (by decide))⟩

/-- In dry-run mode the per-candidate loop leaves the filesystem and the
error stream untouched and appends exactly one would-move line per
candidate. -/
lemma move_loop_dry (mv : String → String → Option String) (dest_dir : String)
    (fuel : Nat) :
    ∀ (files : List String) (st st2 : MState),
      move_loop mv dest_dir true fuel files st = some st2 →
      st2.paths = st.paths ∧ st2.err = st.err ∧
        ∃ ds : List String, ds.length = files.length ∧
          st2.out = st.out ++ (files.zip ds).map (fun pr => dryLine pr.1 pr.2) := by
  intro files
  induction files with
  | nil =>
    intro st st2 h
    rw [move_loop] at h
    cases h
    exact ⟨rfl, rfl, [], rfl, by simp⟩
  | cons f rest ih =>
    intro st st2 h
    rw [move_loop] at h
    cases hfd : findDest (fun p => decide (p ∈ st.paths)) dest_dir (baseName f) fuel with
    | none =>
      rw [hfd] at h
      exact absurd h (by simp)
    | some dp =>
      rw [hfd] at h
      obtain ⟨hp, he, ds, hlen, hout⟩ := ih _ _ h
      refine ⟨hp, he, dp :: ds, by simp [hlen], ?_⟩
      rw [hout]
      simp

/-- C8: with the dry-run flag set the Mover mutates nothing: the set of
existing paths and the error stream are unchanged, the output gains the
count header plus exactly one would-move line per candidate, and a second
scan over the resulting filesystem returns the same candidate list. -/
theorem c8_dry_run_pure (fs : FS) (mv : String → String → Option String)
    (directories patterns : List String) (window : Int) (dest_dir : String)
    (files : List String) (fuel : Nat) (st st2 : MState)
    (hst : st.paths = fs.paths)
    (h : move_files mv files dest_dir true fuel st = some st2) :
    st2.paths = st.paths ∧ st2.err = st.err ∧
    (files ≠ [] → ∃ ds : List String, ds.length = files.length ∧
      st2.out = st.out ++ headerLine files.length ::
        (files.zip ds).map (fun pr => dryLine pr.1 pr.2)) ∧
    find_matching_files { fs with paths := st2.paths } directories patterns
        window dest_dir =
      find_matching_files fs directories patterns window dest_dir := by
  unfold move_files at h
  by_cases hf : files.isEmpty
  · rw [if_pos hf] at h
    cases h
    refine ⟨rfl, rfl, fun hne => absurd (List.isEmpty_iff.mp hf) hne, ?_⟩
    rw [show ({ st with out := st.out ++ ["No matching files found."] } : MState).paths
        = fs.paths from hst]
  · rw [if_neg hf] at h
    obtain ⟨hp, he, ds, hlen, hout⟩ := move_loop_dry mv dest_dir fuel files _ st2 h
    refine ⟨hp, he, fun _ => ⟨ds, hlen, ?_⟩, ?_⟩
    · rw [hout]
      simp
    · rw [show st2.paths = fs.paths from hp.trans hst]

/-- Witness for C8: a concrete dry run over one candidate leaves the
concrete filesystem unchanged. -/
theorem c8_dry_run_pure_witness :
    (⟨["/d", "/s", "/s/a.png", "/d/a.png"],
      [headerLine 1, dryLine "/s/a.png" "/d/a_1.png"], []⟩ : MState).paths =
      (⟨["/d", "/s", "/s/a.png", "/d/a.png"], [], []⟩ : MState).paths :=
  (c8_dry_run_pure wFS (fun _ _ => none) ["/s"] ["*"] 5 "/d" ["/s/a.png"] 5
    ⟨["/d", "/s", "/s/a.png", "/d/a.png"], [], []⟩
    ⟨["/d", "/s", "/s/a.png", "/d/a.png"],
      [headerLine 1, dryLine "/s/a.png" "/d/a_1.png"], []⟩
    rfl (by decide)).1

/-- C9: when the move of one candidate fails, the Mover appends one
diagnostic line naming the file and the cause to the error stream and
continues with the remaining candidates from an unchanged state. -/
theorem c9_move_failure_continues (mv : String → String → Option String)
    (dest_dir : String) (fuel : Nat) (file_path : String) (rest : List String)
    (st : MState) (dest_path msg : String)
    (hfd : findDest (fun p => decide (p ∈ st.paths)) dest_dir (baseName file_path)
      fuel = some dest_path)
    (hmv : mv file_path dest_path = some msg) :
    move_loop mv dest_dir false fuel (file_path :: rest) st =
      move_loop mv dest_dir false fuel rest
        { st with err := st.err ++ [errorLine file_path msg] } := by
  rw [move_loop, hfd]
  simp only [Bool.false_eq_true, if_false, hmv]

/-- Witness for C9: a concrete failing first move produces the diagnostic
and the loop proceeds to the second candidate. -/
theorem c9_move_failure_continues_witness :
    move_loop (fun _ _ => some "Permission denied") "/d" false 5
        ["/s/a.png", "/s/b.png"] ⟨["/d", "/s/a.png", "/s/b.png"], [], []⟩ =
      move_loop (fun _ _ => some "Permission denied") "/d" false 5 ["/s/b.png"]
        ⟨["/d", "/s/a.png", "/s/b.png"], [],
          [] ++ [errorLine "/s/a.png" "Permission denied"]⟩ :=
  c9_move_failure_continues (fun _ _ => some "Permission denied") "/d" 5
    "/s/a.png" ["/s/b.png"] ⟨["/d", "/s/a.png", "/s/b.png"], [], []⟩
    "/d/a.png" "Permission denied" (by decide) rfl

end Mvr
